import Mathlib

/-!
Verification of the Datwatch file-stability detector and LR-to-EPIC converter
(src/Datwatch/Datwatch.py) against its natural-language specification.

The Python module is shallowly embedded: Python dicts become association
lists over `String` keys (insertion-ordered, update-in-place, like CPython
dicts); wall-clock instants (`time.time()`, `os.path.getmtime`) become
integers; `datetime` values become integer microseconds since the Unix
epoch, with civil-calendar conversion for `strftime`; the filesystem is
passed explicitly (`SrcFs` for stat/read of sources, `OutFs` for the
output tree). Exceptions are modelled by `Option` inputs: a source whose
stat fails is absent from `SrcFs`; a source whose ctime/content read
raises carries `data = none`, which drives `convert_lr_to_epic` into its
`except` branch (source lines 63-64).
-/

set_option maxRecDepth 10000

abbrev FPath := String

/-- Python `dict` lookup (`d.get(k)` / `k in d`), modelled on an
insertion-ordered association list. -/
def alookup {α : Type} : List (FPath × α) → FPath → Option α
  | [], _ => none
  | (k, v) :: t, k' => if k = k' then some v else alookup t k'

/-- Python `d[k] = v`: replace in place if the key exists, else append. -/
def upsert {α : Type} : List (FPath × α) → FPath → α → List (FPath × α)
  | [], k, v => [(k, v)]
  | (k', v') :: t, k, v =>
    if k' = k then (k', v) :: t else (k', v') :: upsert t k v

/-- Python `d.pop(k, None)`: drop the entry for `k` if present. -/
def aerase {α : Type} (l : List (FPath × α)) (k : FPath) : List (FPath × α) :=
  l.filter (fun pr => decide (pr.1 ≠ k))

def keysOf {α : Type} (l : List (FPath × α)) : List FPath := l.map Prod.fst

/-- Characters removed by Python `str.strip()` with no argument and by
`float()`'s argument handling: exactly those for which `str.isspace()`
holds — ASCII whitespace, the C0/C1 separators 1C-1F and NEL, NBSP, and
the Unicode space separators. -/
def isPySpace (c : Char) : Bool :=
  c = ' ' || c = '\t' || c = '\n' || c = '\r' || c = '\x0b' || c = '\x0c' ||
  c = '\x1c' || c = '\x1d' || c = '\x1e' || c = '\x1f' || c = '\x85' || c = '\xa0' ||
  c = '\u1680' || ('\u2000' ≤ c && c ≤ '\u200a') || c = '\u2028' || c = '\u2029' ||
  c = '\u202f' || c = '\u205f' || c = '\u3000'

/-- Python `line.strip()`. -/
def pyStrip (s : String) : String :=
  String.mk (((s.data.dropWhile isPySpace).reverse.dropWhile isPySpace).reverse)

/-- Helper for `pyReadlines`: split after each newline, keeping it. -/
def readlinesAux : List Char → List Char → List String
  | [], acc => if acc.isEmpty then [] else [String.mk acc.reverse]
  | c :: cs, acc =>
    if c = '\n' then String.mk (acc.reverse ++ ['\n']) :: readlinesAux cs []
    else readlinesAux cs (c :: acc)

/-- Python `f.readlines()`: lines of the file content, each keeping its
trailing newline; a final unterminated line is kept too. -/
def pyReadlines (s : String) : List String := readlinesAux s.data []

/-- Value of a list of decimal digit characters. -/
def digitsVal (ds : List Char) : ℕ :=
  ds.foldl (fun a c => 10 * a + (c.toNat - 48)) 0

/-- Microseconds represented by `d` decimal-fraction seconds scaled by
`10 ^ k6` where `k6 = 6 + exponent - fractionLength`; negative scale uses
round-half-up on the magnitude. -/
def scaledUsec (d : ℕ) (k6 : ℤ) : ℕ :=
  if 0 ≤ k6 then d * 10 ^ k6.toNat
  else (2 * d + 10 ^ (-k6).toNat) / (2 * 10 ^ (-k6).toNat)

/-- The maximal run of decimal digits and underscores, and the rest. -/
def digitRun (cs : List Char) : List Char × List Char :=
  (cs.takeWhile (fun c => c.isDigit || c = '_'), cs.dropWhile (fun c => c.isDigit || c = '_'))

/-- No two adjacent underscores. -/
def noDoubleUnderscore : List Char → Bool
  | '_' :: '_' :: _ => false
  | _ :: rest => noDoubleUnderscore rest
  | [] => true

/-- A digit run is a valid PEP 515 digit group (accepted by `float`
since Python 3.6) iff its underscores are single and strictly between
digits: none leading, none trailing, none doubled. The empty run is
valid (its significance is checked separately). -/
def validDigitRun (run : List Char) : Bool :=
  !(run.head? == some '_') && !(run.getLast? == some '_') && noDoubleUnderscore run

/-- The digits of a run with the underscores dropped. -/
def runDigits (run : List Char) : List Char := run.filter (fun c => c != '_')

/-- Outcome of a successful Python `float()` as consumed by
`timedelta(seconds=·)` at source line 35: a finite value (carried as the
exact microseconds the decimal literal denotes, the unit `timedelta`
resolves to), a signed infinity, or NaN. -/
inductive PyFloatVal where
  | finite (usec : ℤ)
  | inf (pos : Bool)
  | nan
deriving DecidableEq

/-- Python `float()` on a character list with surrounding whitespace
already removed: optional sign; `inf`/`infinity`/`nan` case-insensitively;
or ASCII digits with optional fraction and exponent, with PEP 515
single underscores between digits (CPython additionally accepts
non-ASCII decimal digits; those are outside the modelled fragment).
`none` models the `ValueError` raised on anything else. -/
def pyFloatCore (cs : List Char) : Option PyFloatVal :=
  let sgncs : Bool × List Char :=
    match cs with
    | '-' :: t => (false, t)
    | '+' :: t => (true, t)
    | _ => (true, cs)
  let pos := sgncs.1
  let cs1 := sgncs.2
  let low := cs1.map Char.toLower
  if low = ['i', 'n', 'f'] || low = ['i', 'n', 'f', 'i', 'n', 'i', 't', 'y'] then
    some (.inf pos)
  else if low = ['n', 'a', 'n'] then some .nan
  else
    let ipr := digitRun cs1
    let ip := runDigits ipr.1
    let cs2 := ipr.2
    let fpr : List Char × List Char :=
      match cs2 with
      | '.' :: t => digitRun t
      | _ => ([], cs2)
    let fp := runDigits fpr.1
    let cs3 := fpr.2
    if !(validDigitRun ipr.1) || !(validDigitRun fpr.1) || (ip.isEmpty && fp.isEmpty) then
      none
    else
      let d := digitsVal (ip ++ fp)
      let sgn : ℤ := if pos then 1 else -1
      match cs3 with
      | [] => some (.finite (sgn * scaledUsec d (6 - fp.length)))
      | 'e' :: t | 'E' :: t =>
        let esgnt : Bool × List Char :=
          match t with
          | '-' :: u => (false, u)
          | '+' :: u => (true, u)
          | _ => (true, t)
        let edr := digitRun esgnt.2
        let ed := runDigits edr.1
        if !(validDigitRun edr.1) || ed.isEmpty || !edr.2.isEmpty then none
        else
          let e : ℤ := if esgnt.1 then (digitsVal ed : ℤ) else -(digitsVal ed : ℤ)
          some (.finite (sgn * scaledUsec d (6 + e - fp.length)))
      | _ => none

/-- `float(s)` (source line 32), with finite values scaled to the exact
microseconds `timedelta(seconds=·)` resolves to; `float` strips its
argument's surrounding whitespace. -/
def pyFloatUsec? (s : String) : Option PyFloatVal := pyFloatCore (pyStrip s).data

/-- Days since 1970-01-01 of a proleptic-Gregorian civil date
(Howard Hinnant's `days_from_civil`). -/
def daysFromCivil (y m d : ℤ) : ℤ :=
  let y' := if m ≤ 2 then y - 1 else y
  let era := Int.fdiv y' 400
  let yoe := y' - era * 400
  let mp := if 2 < m then m - 3 else m + 9
  let doy := Int.fdiv (153 * mp + 2) 5 + d - 1
  let doe := yoe * 365 + Int.fdiv yoe 4 - Int.fdiv yoe 100 + doy
  era * 146097 + doe - 719468

/-- Civil date `(year, month, day)` of a count of days since 1970-01-01
(Howard Hinnant's `civil_from_days`). -/
def civilFromDays (z : ℤ) : ℤ × ℤ × ℤ :=
  let z' := z + 719468
  let era := Int.fdiv z' 146097
  let doe := z' - era * 146097
  let yoe := Int.fdiv (doe - Int.fdiv doe 1460 + Int.fdiv doe 36524 - Int.fdiv doe 146096) 365
  let y := yoe + era * 400
  let doy := doe - (365 * yoe + Int.fdiv yoe 4 - Int.fdiv yoe 100)
  let mp := Int.fdiv (5 * doy + 2) 153
  let d := doy - Int.fdiv (153 * mp + 2) 5 + 1
  let m := if mp < 10 then mp + 3 else mp - 9
  (if m ≤ 2 then y + 1 else y, m, d)

def usecPerDay : ℤ := 86400000000

/-- Zero-padded decimal rendering, as `strftime` field padding. -/
def padNum (w : ℕ) (n : ℕ) : String :=
  String.mk (List.replicate (w - (toString n).length) '0') ++ toString n

/-- `datetime.strftime("%d/%m/%Y %H:%M:%S.%f")` on a naive datetime given
as microseconds since the epoch (source line 36). -/
def fmtDT (t : ℤ) : String :=
  let days := Int.fdiv t usecPerDay
  let rem := (Int.fmod t usecPerDay).toNat
  let ymd := civilFromDays days
  padNum 2 ymd.2.2.toNat ++ "/" ++ padNum 2 ymd.2.1.toNat ++ "/" ++ toString ymd.1 ++ " " ++
    padNum 2 (rem / 3600000000) ++ ":" ++ padNum 2 (rem % 3600000000 / 60000000) ++ ":" ++
    padNum 2 (rem % 60000000 / 1000000) ++ "." ++ padNum 6 (rem % 1000000)

/-- `now.strftime("%Y")` (source line 45). -/
def fmtY (t : ℤ) : String := toString (civilFromDays (Int.fdiv t usecPerDay)).1

/-- `now.strftime("%Y_%m_%d")` (source line 46). -/
def fmtYMD (t : ℤ) : String :=
  let ymd := civilFromDays (Int.fdiv t usecPerDay)
  toString ymd.1 ++ "_" ++ padNum 2 ymd.2.1.toNat ++ "_" ++ padNum 2 ymd.2.2.toNat

/-- Microseconds since the epoch of a civil datetime. -/
def dtUsec (y m d hh mi ss : ℤ) : ℤ :=
  (daysFromCivil y m d * 86400 + hh * 3600 + mi * 60 + ss) * 1000000

/-- `timedelta` lower bound in microseconds: -999999999 days
(CPython's `timedelta.min`); `timedelta(seconds=x)` raises
`OverflowError` below it. -/
def timedeltaMinUsec : ℤ := -86399999913600000000

/-- `timedelta` upper bound in microseconds: 999999999 days
23:59:59.999999 (CPython's `timedelta.max`); `timedelta(seconds=x)`
raises `OverflowError` above it. -/
def timedeltaMaxUsec : ℤ := 86399999999999999999

/-- `datetime.min` (0001-01-01T00:00:00) in microseconds since the
epoch; `datetime + timedelta` raises `OverflowError` below it. -/
def datetimeMinUsec : ℤ := dtUsec 1 1 1 0 0 0

/-- `datetime.max` (9999-12-31T23:59:59.999999) in microseconds since
the epoch; `datetime + timedelta` raises `OverflowError` above it. -/
def datetimeMaxUsec : ℤ := dtUsec 9999 12 31 23 59 59 + 999999

/-- The `OverflowError` conditions at source line 35 for a finite
offset: either `timedelta(seconds=offset)` itself or
`base_time + timedelta(...)` overflows. An `OverflowError` is NOT
caught by the `except ValueError` at line 41; it escapes the line loop
and is caught only by the outer handler at lines 63-64, aborting the
whole file's conversion. -/
def offsetOverflows (base_time off : ℤ) : Bool :=
  decide (off < timedeltaMinUsec) || decide (timedeltaMaxUsec < off) ||
  decide (base_time + off < datetimeMinUsec) || decide (datetimeMaxUsec < base_time + off)


/-- Helper for `pySplitTab`: split a character list at tab characters. -/
def splitTabAux : List Char → List Char → List String
  | [], acc => [String.mk acc.reverse]
  | c :: cs, acc =>
    if c = '\t' then String.mk acc.reverse :: splitTabAux cs []
    else splitTabAux cs (c :: acc)

/-- Python `s.split("\t")` (source line 28): split on every tab, keeping
empty fields; the empty string yields `[""]`. -/
def pySplitTab (s : String) : List String := splitTabAux s.data []

/-- Python `s.endswith(suffix)`. -/
def pyEndsWith (s suffix : String) : Bool :=
  decide (suffix.data.length ≤ s.data.length) &&
    s.data.drop (s.data.length - suffix.data.length) == suffix.data

/-- Result of one iteration of the conversion loop (source lines 27-42):
a line with other than two tab-separated fields is skipped by the
`continue` at line 30 (silently); a two-field line raising `ValueError`
— a first field `float` rejects, or `NaN` (which `timedelta` rejects
with `ValueError`) — is skipped via the `except ValueError` at line 41
with a `logging.warning`; a two-field line whose float-valid offset
makes `timedelta`/`datetime` raise `OverflowError` (infinite or
out-of-range offset) escapes the per-line handler and aborts the whole
file; otherwise the formatted output line is produced. -/
inductive LineResult where
  | skipped : LineResult
  | warned : LineResult
  | converted (out : String) : LineResult
  | overflow : LineResult
deriving DecidableEq

/-- One iteration of the loop at source lines 27-42. -/
def convertLine (base_time : ℤ) (line : String) : LineResult :=
  match pySplitTab (pyStrip line) with
  | [p0, p1] =>
    match pyFloatUsec? p0 with
    | none => .warned
    | some .nan => .warned
    | some (.inf _) => .overflow
    | some (.finite off) =>
      if offsetOverflows base_time off then .overflow
      else .converted (fmtDT (base_time + off) ++ "," ++ p1 ++ "\n")
  | _ => .skipped

/-- Whether this line makes the conversion of the whole file abort via
`OverflowError` (see `LineResult.overflow`). -/
def lineAborts (base_time : ℤ) (line : String) : Bool :=
  match convertLine base_time line with
  | .overflow => true
  | _ => false

/-- The loop at source lines 27-42 over the file's lines: accumulates
the converted lines and the number of `logging.warning` calls, until a
line raises `OverflowError` — then the loop stops (flag true), lines
after it are never reached, and warnings already logged stand. -/
def convertLoop (base_time : ℤ) : List String → List String × ℕ × Bool
  | [] => ([], 0, false)
  | line :: rest =>
    match convertLine base_time line with
    | .skipped => convertLoop base_time rest
    | .warned =>
      let r := convertLoop base_time rest
      (r.1, r.2.1 + 1, r.2.2)
    | .converted s =>
      let r := convertLoop base_time rest
      (s :: r.1, r.2.1, r.2.2)
    | .overflow => ([], 0, true)

/-- A source `.dat` file as `convert_lr_to_epic` reads it: its creation
time (`os.path.getctime`, microseconds) and its text content. -/
structure SourceData where
  ctime : ℤ
  content : String
deriving DecidableEq

/-- The output directory tree: path of `LR.txt` file to its content. -/
abbrev OutFs := List (FPath × String)

/-- The header written at source lines 57-58 when the output file does
not exist yet. -/
def headerText : String := "EPIC LR Log File\n\nDate,LR\n"

/-- The output path built at source lines 44-50 from the current time
(`os.path.join` with `/` separators). -/
def output_file_path (output_base_dir : String) (now : ℤ) : String :=
  output_base_dir ++ "/" ++ fmtY now ++ "/" ++ fmtYMD now ++ "/LR.txt"

/-- Observable outcome of one `convert_lr_to_epic` call: the output tree
afterwards, whether the call ran to completion (`False` = the outer
`except` at lines 63-64 caught an exception and only logged it), the
number of `logging.warning` calls from line 42, and the local
`converted_lines` that were appended. -/
structure ConvertResult where
  outFs : OutFs
  success : Bool
  warnings : ℕ
  appended : List String
deriving DecidableEq

/-- Whether a `convert_lr_to_epic` call runs to completion: the source
must be readable and no line may raise `OverflowError`. -/
def convSuccessOf : Option SourceData → Bool
  | none => false
  | some src => !((pyReadlines src.content).any (lineAborts src.ctime))

/-- `convert_lr_to_epic` (source lines 15-64). `srcView = none` models an
exception while statting/reading the source (unreadable file, vanished
file): the outer `try` catches it, nothing is written, no error
propagates to the caller. With a readable source, each line is
converted, skipped silently (wrong field count), or skipped with a
warning (`ValueError`); if some line raises `OverflowError` the whole
conversion aborts at lines 63-64 — warnings already logged stand but
nothing is written. Otherwise the dated output path is formed from `now`
(`datetime.now()`), the header is written first iff the output file does
not exist, and the converted lines are appended (`open(..., 'a')`). -/
def convert_lr_to_epic (srcView : Option SourceData) (output_base_dir : String) (now : ℤ)
    (out : OutFs) : ConvertResult :=
  match srcView with
  | none => ⟨out, false, 0, []⟩
  | some src =>
    if (convertLoop src.ctime (pyReadlines src.content)).2.2 then
      ⟨out, false, (convertLoop src.ctime (pyReadlines src.content)).2.1, []⟩
    else
      ⟨upsert out (output_file_path output_base_dir now)
        ((match alookup out (output_file_path output_base_dir now) with
          | some c => c
          | none => headerText) ++
          String.join (convertLoop src.ctime (pyReadlines src.content)).1),
        true, (convertLoop src.ctime (pyReadlines src.content)).2.1,
        (convertLoop src.ctime (pyReadlines src.content)).1⟩

/-- The state of the `LRMetaDataHandler` instance (source lines 67-72):
the configuration plus the two shared dicts. `file_timestamps` is the
ActivityRecord (path to last wall-clock activity instant);
`processed_mtimes` is the ProcessedMarker (path to the mtime captured
just before its last dispatched conversion). -/
structure LRMetaDataHandler where
  output_dir : String
  inactivity_period : ℤ
  file_timestamps : List (FPath × ℤ)
  processed_mtimes : List (FPath × ℤ)
deriving DecidableEq

/-- `__init__` (source lines 68-72): both dicts start empty. -/
def LRMetaDataHandler.init (output_dir : String) (inactivity_period : ℤ) : LRMetaDataHandler :=
  ⟨output_dir, inactivity_period, [], []⟩

/-- What the watcher can observe about a source file: its current mtime
(`os.path.getmtime`) and, for the converter, its readable view (`none`
when reading/statting inside `convert_lr_to_epic` would raise). -/
structure SrcInfo where
  mtime : ℤ
  data : Option SourceData
deriving DecidableEq

/-- The source directory as visible to `stat`: absent path means
`FileNotFoundError`. -/
abbrev SrcFs := List (FPath × SrcInfo)

/-- `_should_track` (source lines 74-81): a pure read-only predicate.
Returns `false` when the stat raises `FileNotFoundError`; otherwise true
iff the current mtime is strictly greater than the processed marker,
which defaults to `0.0` (`self.processed_mtimes.get(path, 0.0)`). -/
def should_track (src : SrcFs) (s : LRMetaDataHandler) (path : FPath) : Bool :=
  match alookup src path with
  | none => false
  | some info => decide ((alookup s.processed_mtimes path).getD 0 < info.mtime)

/-- `on_created` (source lines 83-88): directory events ignored; a
non-directory `.dat` path passing `_should_track` gets its activity
timestamp set to `now` (`time.time()`). -/
def on_created (src : SrcFs) (now : ℤ) (s : LRMetaDataHandler) (path : FPath)
    (is_directory : Bool) : LRMetaDataHandler :=
  if is_directory then s
  else if pyEndsWith path ".dat" && should_track src s path then
    { s with file_timestamps := upsert s.file_timestamps path now }
  else s

/-- `on_modified` (source lines 90-95): identical state effect to
`on_created`. -/
def on_modified (src : SrcFs) (now : ℤ) (s : LRMetaDataHandler) (path : FPath)
    (is_directory : Bool) : LRMetaDataHandler :=
  if is_directory then s
  else if pyEndsWith path ".dat" && should_track src s path then
    { s with file_timestamps := upsert s.file_timestamps path now }
  else s

/-- Observable record of the dispatch loop: `processed p m ok` is one
execution of lines 109-121 that captured mtime `m` and in which the
conversion collaborator reported `ok` (`ok = false` means its internal
`except` fired); `dropped p` is the `FileNotFoundError` branch at lines
112-115. -/
inductive PollRecord where
  | processed (path : FPath) (captured : ℤ) (convSuccess : Bool)
  | dropped (path : FPath)
deriving DecidableEq

def recPath : PollRecord → FPath
  | .processed p _ _ => p
  | .dropped p => p

/-- The whole environment a single poll cycle or event callback sees:
the source directory, `time.time()` and `datetime.now()`. -/
structure World where
  src : SrcFs
  nowWall : ℤ
  nowDT : ℤ

/-- The body of the second loop of `check_and_process_files` (source
lines 106-124) for one `file_path`: capture the mtime (dropping the path
on `FileNotFoundError`), call the converter, store the captured mtime in
`processed_mtimes`, and pop the path from `file_timestamps`. The
converter never raises (its body is entirely inside its own
`try/except`), so the marker update and pop run unconditionally after
it. -/
def pollStep (w : World) (acc : LRMetaDataHandler × OutFs × List PollRecord) (fp : FPath) :
    LRMetaDataHandler × OutFs × List PollRecord :=
  match alookup w.src fp with
  | none =>
    ({ acc.1 with file_timestamps := aerase acc.1.file_timestamps fp }, acc.2.1,
      acc.2.2 ++ [.dropped fp])
  | some info =>
    let r := convert_lr_to_epic info.data acc.1.output_dir w.nowDT acc.2.1
    ({ acc.1 with
        processed_mtimes := upsert acc.1.processed_mtimes fp info.mtime,
        file_timestamps := aerase acc.1.file_timestamps fp },
      r.outFs, acc.2.2 ++ [.processed fp info.mtime r.success])

/-- The first loop of `check_and_process_files` (source lines 101-104):
the snapshot of paths whose inactivity strictly exceeds the threshold,
in insertion order. -/
def files_to_process (w : World) (s : LRMetaDataHandler) : List FPath :=
  (s.file_timestamps.filter fun pr => decide (s.inactivity_period < w.nowWall - pr.2)).map
    Prod.fst

/-- `check_and_process_files` (source lines 97-124). -/
def check_and_process_files (w : World) (s : LRMetaDataHandler) (out : OutFs) :
    LRMetaDataHandler × OutFs × List PollRecord :=
  (files_to_process w s).foldl (pollStep w) (s, out, [])

/-- One external stimulus: a watchdog callback or one poll cycle of the
main loop (source lines 140-142). -/
inductive Step where
  | evCreated (path : FPath) (isDir : Bool)
  | evModified (path : FPath) (isDir : Bool)
  | poll

def runStep (w : World) (st : Step) (s : LRMetaDataHandler) (out : OutFs) :
    LRMetaDataHandler × OutFs × List PollRecord :=
  match st with
  | .evCreated p d => (on_created w.src w.nowWall s p d, out, [])
  | .evModified p d => (on_modified w.src w.nowWall s p d, out, [])
  | .poll => check_and_process_files w s out

/-- A run of the handler under a sequence of stimuli, each seeing its own
snapshot of the environment; the dispatch records are concatenated in
order. -/
def run (s : LRMetaDataHandler) (out : OutFs) :
    List (World × Step) → LRMetaDataHandler × OutFs × List PollRecord
  | [] => (s, out, [])
  | (w, st) :: rest =>
    let r1 := runStep w st s out
    let r2 := run r1.1 r1.2.1 rest
    (r2.1, r2.2.1, r1.2.2 ++ r2.2.2)

/-- The captured mtimes of the conversion passes dispatched for `p`, in
order. -/
def processedFor (p : FPath) (recs : List PollRecord) : List ℤ :=
  recs.filterMap fun r =>
    match r with
    | .processed q m _ => if q = p then some m else none
    | .dropped _ => none

/-- The current mtime of `p` as `stat` would report it in world `w`. -/
def mtimeAt (w : World) (p : FPath) : Option ℤ := (alookup w.src p).map SrcInfo.mtime

/-- The processed marker for `p` with the `0.0` default of line 80. -/
def markerOf (s : LRMetaDataHandler) (p : FPath) : ℤ :=
  (alookup s.processed_mtimes p).getD 0

/-- Mtimes of `p` never decrease between two environment snapshots. -/
def mtMono (p : FPath) (w1 w2 : World) : Prop :=
  ∀ m1 m2, mtimeAt w1 p = some m1 → mtimeAt w2 p = some m2 → m1 ≤ m2

/-- The record produced by `pollStep` for `fp`, determined by the world
alone. -/
def recordOf (w : World) (fp : FPath) : PollRecord :=
  match alookup w.src fp with
  | none => .dropped fp
  | some info => .processed fp info.mtime (convSuccessOf info.data)


/-- Invariant tying the ActivityRecord to the future of a run: while `p`
is tracked, every mtime `p` will ever show in the remaining trace is
strictly above `p`'s processed marker. This is how `_should_track`'s gate
at tracking time, plus monotone mtimes, constrains later dispatches. -/
def trackInv (p : FPath) (s : LRMetaDataHandler) (ws : List (World × Step)) : Prop :=
  (alookup s.file_timestamps p).isSome = true →
    ∀ x ∈ ws, ∀ m, mtimeAt x.1 p = some m → markerOf s p < m

theorem alookup_upsert_self {α : Type} (l : List (FPath × α)) (k : FPath) (v : α) :
    alookup (upsert l k v) k = some v := by
  induction l with
  | nil => simp [upsert, alookup]
  | cons h t ih =>
    obtain ⟨k', v'⟩ := h
    by_cases hk : k' = k
    · subst hk; simp [upsert, alookup]
    · simp [upsert, hk, alookup, ih]

theorem alookup_upsert_ne {α : Type} (l : List (FPath × α)) {k k' : FPath} (v : α)
    (h : k' ≠ k) : alookup (upsert l k v) k' = alookup l k' := by
  induction l with
  | nil =>
    have hne : k ≠ k' := fun hh => h hh.symm
    simp [upsert, alookup, hne]
  | cons hd t ih =>
    obtain ⟨k'', v''⟩ := hd
    by_cases hk : k'' = k
    · subst hk
      have hne : k'' ≠ k' := fun hh => h hh.symm
      simp [upsert, alookup, hne]
    · by_cases hk2 : k'' = k'
      · subst hk2
        simp [upsert, hk, alookup]
      · simp [upsert, hk, alookup, hk2, ih]

theorem alookup_aerase_self {α : Type} (l : List (FPath × α)) (k : FPath) :
    alookup (aerase l k) k = none := by
  induction l with
  | nil => simp [aerase, alookup]
  | cons hd t ih =>
    obtain ⟨k', v'⟩ := hd
    by_cases hk : k' = k
    · simpa [aerase, List.filter_cons, hk] using ih
    · simpa [aerase, List.filter_cons, hk, alookup] using ih

theorem alookup_aerase_ne {α : Type} (l : List (FPath × α)) {k k' : FPath}
    (h : k' ≠ k) : alookup (aerase l k) k' = alookup l k' := by
  induction l with
  | nil => simp [aerase, alookup]
  | cons hd t ih =>
    obtain ⟨k'', v''⟩ := hd
    by_cases hk : k'' = k
    · subst hk
      have hne : k'' ≠ k' := fun hh => h hh.symm
      simpa [aerase, List.filter_cons, alookup, hne] using ih
    · by_cases hk2 : k'' = k'
      · subst hk2
        simp [aerase, List.filter_cons, hk, alookup]
      · simpa [aerase, List.filter_cons, hk, alookup, hk2] using ih

theorem mem_of_alookup_eq_some {α : Type} {l : List (FPath × α)} {k : FPath} {v : α}
    (h : alookup l k = some v) : (k, v) ∈ l := by
  induction l with
  | nil => simp [alookup] at h
  | cons hd t ih =>
    obtain ⟨k', v'⟩ := hd
    by_cases hk : k' = k
    · subst hk
      simp [alookup] at h
      simp [h]
    · simp [alookup, hk] at h
      exact List.mem_cons_of_mem _ (ih h)

theorem alookup_isSome_of_mem {α : Type} {l : List (FPath × α)} {k : FPath} {v : α}
    (h : (k, v) ∈ l) : (alookup l k).isSome = true := by
  induction l with
  | nil => simp at h
  | cons hd t ih =>
    obtain ⟨k', v'⟩ := hd
    rcases List.mem_cons.mp h with h1 | h2
    · obtain ⟨h1a, h1b⟩ := Prod.mk.injEq .. ▸ h1
      simp [alookup, h1a.symm]
    · by_cases hk : k' = k
      · simp [alookup, hk]
      · simpa [alookup, hk] using ih h2

theorem alookup_of_mem_nodup {α : Type} {l : List (FPath × α)} {k : FPath} {v : α}
    (hnd : (keysOf l).Nodup) (h : (k, v) ∈ l) : alookup l k = some v := by
  induction l with
  | nil => simp at h
  | cons hd t ih =>
    obtain ⟨k', v'⟩ := hd
    simp only [keysOf, List.map_cons, List.nodup_cons] at hnd
    rcases List.mem_cons.mp h with h1 | h2
    · obtain ⟨h1a, h1b⟩ := Prod.mk.injEq .. ▸ h1
      simp [alookup, h1a, h1b]
    · by_cases hk : k' = k
      · exfalso
        subst hk
        exact hnd.1 (List.mem_map.mpr ⟨(k', v), h2, rfl⟩)
      · simpa [alookup, hk] using ih hnd.2 h2

theorem mem_keys_upsert {α : Type} (l : List (FPath × α)) (k q : FPath) (v : α) :
    q ∈ keysOf (upsert l k v) ↔ q ∈ keysOf l ∨ q = k := by
  induction l with
  | nil => simp [upsert, keysOf]
  | cons hd t ih =>
    obtain ⟨k', v'⟩ := hd
    by_cases hk : k' = k
    · subst hk
      simp only [upsert, keysOf, List.map_cons, List.mem_cons, if_pos rfl, ite_true]
      tauto
    · simp only [upsert, keysOf, List.map_cons, List.mem_cons, if_neg hk, ite_false] at *
      rw [ih]
      tauto

theorem nodup_keys_upsert {α : Type} (l : List (FPath × α)) (k : FPath) (v : α)
    (h : (keysOf l).Nodup) : (keysOf (upsert l k v)).Nodup := by
  induction l with
  | nil => simp [upsert, keysOf]
  | cons hd t ih =>
    obtain ⟨k', v'⟩ := hd
    simp only [keysOf, List.map_cons, List.nodup_cons] at h
    by_cases hk : k' = k
    · subst hk
      simp only [upsert, if_pos rfl, ite_true, keysOf, List.map_cons, List.nodup_cons]
      exact ⟨h.1, h.2⟩
    · simp only [upsert, if_neg hk, ite_false, keysOf, List.map_cons, List.nodup_cons]
      refine ⟨?_, ih h.2⟩
      intro hmem
      rcases (mem_keys_upsert t k k' v).mp hmem with h1 | h2
      · exact h.1 h1
      · exact hk h2

theorem keys_aerase_sublist {α : Type} (l : List (FPath × α)) (k : FPath) :
    (keysOf (aerase l k)).Sublist (keysOf l) :=
  List.Sublist.map Prod.fst (List.filter_sublist l)

theorem nodup_keys_aerase {α : Type} (l : List (FPath × α)) (k : FPath)
    (h : (keysOf l).Nodup) : (keysOf (aerase l k)).Nodup :=
  h.sublist (keys_aerase_sublist l k)

theorem on_created_eq_on_modified : @on_created = @on_modified := rfl

theorem on_modified_processed_mtimes (src : SrcFs) (now : ℤ) (s : LRMetaDataHandler)
    (path : FPath) (d : Bool) :
    (on_modified src now s path d).processed_mtimes = s.processed_mtimes := by
  unfold on_modified
  split
  · rfl
  · split <;> rfl

theorem on_modified_output_dir (src : SrcFs) (now : ℤ) (s : LRMetaDataHandler)
    (path : FPath) (d : Bool) :
    (on_modified src now s path d).output_dir = s.output_dir := by
  unfold on_modified
  split
  · rfl
  · split <;> rfl

theorem on_modified_inactivity (src : SrcFs) (now : ℤ) (s : LRMetaDataHandler)
    (path : FPath) (d : Bool) :
    (on_modified src now s path d).inactivity_period = s.inactivity_period := by
  unfold on_modified
  split
  · rfl
  · split <;> rfl

/-- The effect of an event callback on the ActivityRecord entry of `p`:
either it is the passing non-directory `.dat` event for `p` itself, and
the entry becomes `now`, or the entry is untouched. -/
theorem on_modified_fts_lookup (src : SrcFs) (now : ℤ) (s : LRMetaDataHandler)
    (path p : FPath) (d : Bool) :
    (d = false ∧ path = p ∧ (pyEndsWith path ".dat" && should_track src s path) = true ∧
       alookup (on_modified src now s path d).file_timestamps p = some now) ∨
    alookup (on_modified src now s path d).file_timestamps p = alookup s.file_timestamps p := by
  unfold on_modified
  by_cases hd : d = true
  · right; simp [hd]
  · have hd' : d = false := by simpa using hd
    by_cases hpass : (pyEndsWith path ".dat" && should_track src s path) = true
    · by_cases hp : path = p
      · subst hp
        left
        exact ⟨hd', rfl, hpass, by simp [hd', hpass, alookup_upsert_self]⟩
      · right
        simp only [hd', Bool.false_eq_true, if_false, hpass, if_true]
        exact alookup_upsert_ne _ _ (fun hh => hp hh.symm)
    · right
      simp [hd', hpass]

theorem nodup_keys_on_modified (src : SrcFs) (now : ℤ) (s : LRMetaDataHandler)
    (path : FPath) (d : Bool) (h : (keysOf s.file_timestamps).Nodup) :
    (keysOf (on_modified src now s path d).file_timestamps).Nodup := by
  unfold on_modified
  split
  · exact h
  · split
    · exact nodup_keys_upsert _ _ _ h
    · exact h

/-- `_should_track` returns true exactly when the file is stat-able and
its mtime strictly exceeds the marker (default `0.0`). -/
theorem should_track_iff (src : SrcFs) (s : LRMetaDataHandler) (p : FPath) :
    should_track src s p = true ↔
      ∃ info, alookup src p = some info ∧ markerOf s p < info.mtime := by
  unfold should_track markerOf
  cases h : alookup src p with
  | none => simp
  | some info => simp [h]

theorem convertLoop_aborted (bt : ℤ) (lines : List String) :
    (convertLoop bt lines).2.2 = lines.any (lineAborts bt) := by
  induction lines with
  | nil => rfl
  | cons line rest ih =>
    unfold convertLoop
    cases h : convertLine bt line <;> simp [lineAborts, h, ih]

/-- The converter reports completion iff the source was readable and no
line raised `OverflowError`; every other exception inside it is caught
by its own handlers. The outcome depends only on the source view, not on
the output tree or the clock. -/
theorem convert_success (sv : Option SourceData) (b : String) (n : ℤ) (o : OutFs) :
    (convert_lr_to_epic sv b n o).success = convSuccessOf sv := by
  cases sv with
  | none => rfl
  | some src =>
    simp only [convert_lr_to_epic, convSuccessOf]
    rw [← convertLoop_aborted src.ctime (pyReadlines src.content)]
    split <;> simp_all

theorem pollStep_records (w : World) (acc : LRMetaDataHandler × OutFs × List PollRecord)
    (fp : FPath) : (pollStep w acc fp).2.2 = acc.2.2 ++ [recordOf w fp] := by
  unfold pollStep recordOf
  cases h : alookup w.src fp with
  | none => rfl
  | some info => simp [convert_success]

theorem pollStep_config (w : World) (acc : LRMetaDataHandler × OutFs × List PollRecord)
    (fp : FPath) :
    (pollStep w acc fp).1.output_dir = acc.1.output_dir ∧
    (pollStep w acc fp).1.inactivity_period = acc.1.inactivity_period := by
  unfold pollStep
  cases h : alookup w.src fp <;> simp

theorem pollStep_fts_ne (w : World) (acc : LRMetaDataHandler × OutFs × List PollRecord)
    {fp p : FPath} (h : p ≠ fp) :
    alookup (pollStep w acc fp).1.file_timestamps p = alookup acc.1.file_timestamps p := by
  unfold pollStep
  cases hs : alookup w.src fp <;> simp [alookup_aerase_ne _ h]

theorem pollStep_fts_self (w : World) (acc : LRMetaDataHandler × OutFs × List PollRecord)
    (fp : FPath) : alookup (pollStep w acc fp).1.file_timestamps fp = none := by
  unfold pollStep
  cases hs : alookup w.src fp <;> simp [alookup_aerase_self]

theorem pollStep_markers_ne (w : World) (acc : LRMetaDataHandler × OutFs × List PollRecord)
    {fp p : FPath} (h : p ≠ fp) :
    alookup (pollStep w acc fp).1.processed_mtimes p = alookup acc.1.processed_mtimes p := by
  unfold pollStep
  cases hs : alookup w.src fp with
  | none => rfl
  | some info => simp [alookup_upsert_ne _ _ h]

theorem pollStep_markers_self_some (w : World)
    (acc : LRMetaDataHandler × OutFs × List PollRecord) {fp : FPath} {info : SrcInfo}
    (hs : alookup w.src fp = some info) :
    alookup (pollStep w acc fp).1.processed_mtimes fp = some info.mtime := by
  unfold pollStep
  simp [hs, alookup_upsert_self]

theorem pollStep_markers_self_none (w : World)
    (acc : LRMetaDataHandler × OutFs × List PollRecord) {fp : FPath}
    (hs : alookup w.src fp = none) :
    alookup (pollStep w acc fp).1.processed_mtimes fp = alookup acc.1.processed_mtimes fp := by
  unfold pollStep
  simp [hs]

theorem pollStep_nodup (w : World) (acc : LRMetaDataHandler × OutFs × List PollRecord)
    (fp : FPath) (h : (keysOf acc.1.file_timestamps).Nodup) :
    (keysOf (pollStep w acc fp).1.file_timestamps).Nodup := by
  unfold pollStep
  cases hs : alookup w.src fp <;> simpa using nodup_keys_aerase _ fp h

theorem foldPoll_records (w : World) (l : List FPath) :
    ∀ acc : LRMetaDataHandler × OutFs × List PollRecord,
      (l.foldl (pollStep w) acc).2.2 = acc.2.2 ++ l.map (recordOf w) := by
  induction l with
  | nil => intro acc; simp
  | cons fp t ih =>
    intro acc
    simp only [List.foldl_cons, List.map_cons]
    rw [ih, pollStep_records]
    simp

theorem foldPoll_fts_not_mem (w : World) (l : List FPath) :
    ∀ acc : LRMetaDataHandler × OutFs × List PollRecord, ∀ p : FPath, p ∉ l →
      alookup (l.foldl (pollStep w) acc).1.file_timestamps p =
        alookup acc.1.file_timestamps p := by
  induction l with
  | nil => intro acc p _; rfl
  | cons fp t ih =>
    intro acc p hp
    simp only [List.mem_cons, not_or] at hp
    simp only [List.foldl_cons]
    rw [ih _ _ hp.2, pollStep_fts_ne _ _ hp.1]

theorem foldPoll_markers_not_mem (w : World) (l : List FPath) :
    ∀ acc : LRMetaDataHandler × OutFs × List PollRecord, ∀ p : FPath, p ∉ l →
      alookup (l.foldl (pollStep w) acc).1.processed_mtimes p =
        alookup acc.1.processed_mtimes p := by
  induction l with
  | nil => intro acc p _; rfl
  | cons fp t ih =>
    intro acc p hp
    simp only [List.mem_cons, not_or] at hp
    simp only [List.foldl_cons]
    rw [ih _ _ hp.2, pollStep_markers_ne _ _ hp.1]

theorem foldPoll_fts_mem (w : World) (l : List FPath) :
    ∀ acc : LRMetaDataHandler × OutFs × List PollRecord, ∀ p : FPath, p ∈ l →
      alookup (l.foldl (pollStep w) acc).1.file_timestamps p = none := by
  induction l with
  | nil => intro acc p hp; simp at hp
  | cons fp t ih =>
    intro acc p hp
    simp only [List.foldl_cons]
    by_cases hpt : p ∈ t
    · exact ih _ _ hpt
    · have hpfp : p = fp := by
        rcases List.mem_cons.mp hp with h1 | h2
        · exact h1
        · exact absurd h2 hpt
      subst hpfp
      rw [foldPoll_fts_not_mem w t _ _ hpt, pollStep_fts_self]

theorem foldPoll_markers_mem_some (w : World) (l : List FPath)
    (acc : LRMetaDataHandler × OutFs × List PollRecord) (p : FPath) (info : SrcInfo)
    (hp : p ∈ l) (hnd : l.Nodup) (hs : alookup w.src p = some info) :
    alookup (l.foldl (pollStep w) acc).1.processed_mtimes p = some info.mtime := by
  obtain ⟨l1, l2, rfl⟩ := List.append_of_mem hp
  rw [List.foldl_append, List.foldl_cons]
  have hnl2 : p ∉ l2 := by
    rcases List.nodup_append.mp hnd with ⟨_, hn2, _⟩
    exact (List.nodup_cons.mp hn2).1
  rw [foldPoll_markers_not_mem w l2 _ _ hnl2, pollStep_markers_self_some _ _ hs]

theorem foldPoll_markers_mem_none (w : World) (l : List FPath)
    (acc : LRMetaDataHandler × OutFs × List PollRecord) (p : FPath)
    (hp : p ∈ l) (hnd : l.Nodup) (hs : alookup w.src p = none) :
    alookup (l.foldl (pollStep w) acc).1.processed_mtimes p =
      alookup acc.1.processed_mtimes p := by
  obtain ⟨l1, l2, rfl⟩ := List.append_of_mem hp
  rw [List.foldl_append, List.foldl_cons]
  have hnl1 : p ∉ l1 := by
    rcases List.nodup_append.mp hnd with ⟨_, _, hdisj⟩
    intro hmem
    exact hdisj hmem (List.mem_cons_self _ _)
  have hnl2 : p ∉ l2 := by
    rcases List.nodup_append.mp hnd with ⟨_, hn2, _⟩
    exact (List.nodup_cons.mp hn2).1
  rw [foldPoll_markers_not_mem w l2 _ _ hnl2, pollStep_markers_self_none _ _ hs,
    foldPoll_markers_not_mem w l1 _ _ hnl1]

theorem foldPoll_nodup (w : World) (l : List FPath) :
    ∀ acc : LRMetaDataHandler × OutFs × List PollRecord,
      (keysOf acc.1.file_timestamps).Nodup →
      (keysOf (l.foldl (pollStep w) acc).1.file_timestamps).Nodup := by
  induction l with
  | nil => intro acc h; exact h
  | cons fp t ih =>
    intro acc h
    simp only [List.foldl_cons]
    exact ih _ (pollStep_nodup w acc fp h)

theorem recPath_recordOf (w : World) (fp : FPath) : recPath (recordOf w fp) = fp := by
  unfold recPath recordOf
  cases h : alookup w.src fp <;> simp

/-- Every poll cycle emits exactly one dispatch record per ready path, in
snapshot order. -/
theorem check_records_paths (w : World) (s : LRMetaDataHandler) (out : OutFs) :
    (check_and_process_files w s out).2.2.map recPath = files_to_process w s := by
  unfold check_and_process_files
  rw [foldPoll_records]
  simp [List.map_map, Function.comp_def, recPath_recordOf]

theorem check_records (w : World) (s : LRMetaDataHandler) (out : OutFs) :
    (check_and_process_files w s out).2.2 = (files_to_process w s).map (recordOf w) := by
  unfold check_and_process_files
  rw [foldPoll_records]
  simp

theorem ftp_nodup {w : World} {s : LRMetaDataHandler}
    (hnd : (keysOf s.file_timestamps).Nodup) : (files_to_process w s).Nodup :=
  hnd.sublist (List.Sublist.map Prod.fst (List.filter_sublist _))

theorem mem_ftp_iff {w : World} {s : LRMetaDataHandler} {p : FPath} {t : ℤ}
    (hnd : (keysOf s.file_timestamps).Nodup) (ht : alookup s.file_timestamps p = some t) :
    p ∈ files_to_process w s ↔ s.inactivity_period < w.nowWall - t := by
  unfold files_to_process
  constructor
  · intro hp
    obtain ⟨pr, hpr, hfst⟩ := List.mem_map.mp hp
    obtain ⟨hmem, hcond⟩ := List.mem_filter.mp hpr
    obtain ⟨q, v⟩ := pr
    simp only at hfst
    subst hfst
    have hlook : alookup s.file_timestamps q = some v := alookup_of_mem_nodup hnd hmem
    rw [ht] at hlook
    obtain rfl : t = v := by simpa using hlook
    simpa using hcond
  · intro hlt
    refine List.mem_map.mpr ⟨(p, t), List.mem_filter.mpr ⟨mem_of_alookup_eq_some ht, ?_⟩, rfl⟩
    simpa using hlt

theorem not_mem_ftp_of_none {w : World} {s : LRMetaDataHandler} {p : FPath}
    (h : alookup s.file_timestamps p = none) : p ∉ files_to_process w s := by
  intro hp
  unfold files_to_process at hp
  obtain ⟨pr, hpr, hfst⟩ := List.mem_map.mp hp
  obtain ⟨hmem, _⟩ := List.mem_filter.mp hpr
  obtain ⟨q, v⟩ := pr
  simp only at hfst
  subst hfst
  have := alookup_isSome_of_mem hmem
  rw [h] at this
  simp at this

theorem processedFor_append (p : FPath) (a b : List PollRecord) :
    processedFor p (a ++ b) = processedFor p a ++ processedFor p b := by
  unfold processedFor
  exact List.filterMap_append a b _

theorem processedFor_cons (p : FPath) (r : PollRecord) (rs : List PollRecord) :
    processedFor p (r :: rs) =
      (match r with
       | .processed q m _ => if q = p then [m] else []
       | .dropped _ => []) ++ processedFor p rs := by
  cases r with
  | processed q m ok =>
    by_cases h : q = p <;> simp [processedFor, List.filterMap_cons, h]
  | dropped q => simp [processedFor, List.filterMap_cons]

theorem processedFor_map_not_mem (w : World) {l : List FPath} {p : FPath} (hp : p ∉ l) :
    processedFor p (l.map (recordOf w)) = [] := by
  induction l with
  | nil => rfl
  | cons fp t ih =>
    simp only [List.mem_cons, not_or] at hp
    rw [List.map_cons, processedFor_cons, ih hp.2]
    unfold recordOf
    cases hs : alookup w.src fp with
    | none => rfl
    | some info =>
      have hne : fp ≠ p := fun hh => hp.1 hh.symm
      simp [hne]

theorem processedFor_map_mem (w : World) {l : List FPath} {p : FPath}
    (hp : p ∈ l) (hnd : l.Nodup) :
    processedFor p (l.map (recordOf w)) =
      match alookup w.src p with
      | none => []
      | some info => [info.mtime] := by
  obtain ⟨l1, l2, rfl⟩ := List.append_of_mem hp
  have hn1 : p ∉ l1 := by
    rcases List.nodup_append.mp hnd with ⟨_, _, hdisj⟩
    intro hmem
    exact hdisj hmem (List.mem_cons_self _ _)
  have hn2 : p ∉ l2 := by
    rcases List.nodup_append.mp hnd with ⟨_, hn, _⟩
    exact (List.nodup_cons.mp hn).1
  rw [List.map_append, processedFor_append, processedFor_map_not_mem w hn1, List.map_cons,
    processedFor_cons, processedFor_map_not_mem w hn2]
  unfold recordOf
  cases hs : alookup w.src p <;> simp

theorem check_fts_not_mem {w : World} {s : LRMetaDataHandler} {out : OutFs} {p : FPath}
    (hp : p ∉ files_to_process w s) :
    alookup (check_and_process_files w s out).1.file_timestamps p =
      alookup s.file_timestamps p := by
  unfold check_and_process_files
  exact foldPoll_fts_not_mem w _ _ _ hp

theorem check_fts_mem {w : World} {s : LRMetaDataHandler} {out : OutFs} {p : FPath}
    (hp : p ∈ files_to_process w s) :
    alookup (check_and_process_files w s out).1.file_timestamps p = none := by
  unfold check_and_process_files
  exact foldPoll_fts_mem w _ _ _ hp

theorem check_markers_not_mem {w : World} {s : LRMetaDataHandler} {out : OutFs} {p : FPath}
    (hp : p ∉ files_to_process w s) :
    alookup (check_and_process_files w s out).1.processed_mtimes p =
      alookup s.processed_mtimes p := by
  unfold check_and_process_files
  exact foldPoll_markers_not_mem w _ _ _ hp

theorem check_markers_mem_some {w : World} {s : LRMetaDataHandler} {out : OutFs} {p : FPath}
    {info : SrcInfo} (hp : p ∈ files_to_process w s)
    (hnd : (keysOf s.file_timestamps).Nodup) (hs : alookup w.src p = some info) :
    alookup (check_and_process_files w s out).1.processed_mtimes p = some info.mtime := by
  unfold check_and_process_files
  exact foldPoll_markers_mem_some w _ _ p info hp (ftp_nodup hnd) hs

theorem check_markers_mem_none {w : World} {s : LRMetaDataHandler} {out : OutFs} {p : FPath}
    (hp : p ∈ files_to_process w s) (hnd : (keysOf s.file_timestamps).Nodup)
    (hs : alookup w.src p = none) :
    alookup (check_and_process_files w s out).1.processed_mtimes p =
      alookup s.processed_mtimes p := by
  unfold check_and_process_files
  exact foldPoll_markers_mem_none w _ _ p hp (ftp_nodup hnd) hs

theorem check_nodup {w : World} {s : LRMetaDataHandler} {out : OutFs}
    (hnd : (keysOf s.file_timestamps).Nodup) :
    (keysOf (check_and_process_files w s out).1.file_timestamps).Nodup := by
  unfold check_and_process_files
  exact foldPoll_nodup w _ _ hnd

theorem ftp_isSome {w : World} {s : LRMetaDataHandler} {p : FPath}
    (hp : p ∈ files_to_process w s) : (alookup s.file_timestamps p).isSome = true := by
  cases hl : alookup s.file_timestamps p with
  | none => exact absurd hp (not_mem_ftp_of_none hl)
  | some t => rfl

theorem trackInv_of_none {p : FPath} {s' : LRMetaDataHandler} {rest : List (World × Step)}
    (h : alookup s'.file_timestamps p = none) : trackInv p s' rest := by
  intro hsome
  rw [h] at hsome
  simp at hsome

theorem trackInv_event {p q : FPath} {d : Bool} {w : World} {st : Step}
    {rest : List (World × Step)} {s : LRMetaDataHandler}
    (hw : ∀ y ∈ rest, mtMono p w y.1)
    (hinv : trackInv p s ((w, st) :: rest)) :
    trackInv p (on_modified w.src w.nowWall s q d) rest := by
  intro hsome x hx m hm
  have hmk : markerOf (on_modified w.src w.nowWall s q d) p = markerOf s p := by
    unfold markerOf
    rw [on_modified_processed_mtimes]
  rcases on_modified_fts_lookup w.src w.nowWall s q p d with ⟨_, hqp, hpass, _⟩ | hsame
  · subst hqp
    have hpass2 : pyEndsWith q ".dat" = true ∧ should_track w.src s q = true := by
      simpa using hpass
    have hst : should_track w.src s q = true := hpass2.2
    obtain ⟨info, hsrc, hlt⟩ := (should_track_iff w.src s q).mp hst
    have hmt : mtimeAt w q = some info.mtime := by
      unfold mtimeAt
      rw [hsrc]
      rfl
    have hle : info.mtime ≤ m := hw x hx info.mtime m hmt hm
    rw [hmk]
    exact lt_of_lt_of_le hlt hle
  · rw [hmk]
    rw [hsame] at hsome
    exact hinv hsome x (List.mem_cons_of_mem _ hx) m hm

theorem run_cons (s : LRMetaDataHandler) (out : OutFs) (w : World) (st : Step)
    (rest : List (World × Step)) :
    (run s out ((w, st) :: rest)).2.2 =
      (runStep w st s out).2.2 ++
        (run (runStep w st s out).1 (runStep w st s out).2.1 rest).2.2 := rfl

/-- Core induction: along any run whose snapshots report monotone mtimes
for `p`, the captured mtimes of `p`'s dispatches form a strictly
increasing chain starting strictly above `p`'s current marker whenever
the invariant holds. -/
theorem run_chain (p : FPath) (ws : List (World × Step)) :
    ∀ (s : LRMetaDataHandler) (out : OutFs),
      List.Pairwise (fun x y => mtMono p x.1 y.1) ws →
      trackInv p s ws →
      (keysOf s.file_timestamps).Nodup →
      List.Chain' (· < ·) (markerOf s p :: processedFor p (run s out ws).2.2) := by
  induction ws with
  | nil =>
    intro s out _ _ _
    simp [run, processedFor]
  | cons hw rest ih =>
    obtain ⟨w, st⟩ := hw
    intro s out hpw hinv hnd
    have hpw_head := (List.pairwise_cons.mp hpw).1
    have hpw_rest := (List.pairwise_cons.mp hpw).2
    rw [run_cons, processedFor_append]
    cases st with
    | evCreated q d =>
      have hrec : (runStep w (.evCreated q d) s out).2.2 = [] := rfl
      have hst1 : (runStep w (.evCreated q d) s out).1 =
          on_modified w.src w.nowWall s q d := rfl
      have hout1 : (runStep w (.evCreated q d) s out).2.1 = out := rfl
      rw [hrec, hst1, hout1]
      have hmk : markerOf (on_modified w.src w.nowWall s q d) p = markerOf s p := by
        unfold markerOf
        rw [on_modified_processed_mtimes]
      have := ih (on_modified w.src w.nowWall s q d) out hpw_rest
        (trackInv_event hpw_head hinv) (nodup_keys_on_modified w.src w.nowWall s q d hnd)
      rw [hmk] at this
      simpa using this
    | evModified q d =>
      have hrec : (runStep w (.evModified q d) s out).2.2 = [] := rfl
      have hst1 : (runStep w (.evModified q d) s out).1 =
          on_modified w.src w.nowWall s q d := rfl
      have hout1 : (runStep w (.evModified q d) s out).2.1 = out := rfl
      rw [hrec, hst1, hout1]
      have hmk : markerOf (on_modified w.src w.nowWall s q d) p = markerOf s p := by
        unfold markerOf
        rw [on_modified_processed_mtimes]
      have := ih (on_modified w.src w.nowWall s q d) out hpw_rest
        (trackInv_event hpw_head hinv) (nodup_keys_on_modified w.src w.nowWall s q d hnd)
      rw [hmk] at this
      simpa using this
    | poll =>
      have hst1 : (runStep w .poll s out).1 = (check_and_process_files w s out).1 := rfl
      have hout1 : (runStep w .poll s out).2.1 = (check_and_process_files w s out).2.1 := rfl
      have hrec : (runStep w .poll s out).2.2 = (check_and_process_files w s out).2.2 := rfl
      rw [hst1, hout1, hrec, check_records]
      have hnd1 : (keysOf (check_and_process_files w s out).1.file_timestamps).Nodup :=
        check_nodup hnd
      by_cases hp : p ∈ files_to_process w s
      · have hsome := ftp_isSome hp
        cases hs : alookup w.src p with
        | none =>
          have hproc : processedFor p ((files_to_process w s).map (recordOf w)) = [] := by
            rw [processedFor_map_mem w hp (ftp_nodup hnd), hs]
          have hmk : markerOf (check_and_process_files w s out).1 p = markerOf s p := by
            unfold markerOf
            rw [check_markers_mem_none hp hnd hs]
          have hinv1 : trackInv p (check_and_process_files w s out).1 rest :=
            trackInv_of_none (check_fts_mem hp)
          have := ih (check_and_process_files w s out).1
            (check_and_process_files w s out).2.1 hpw_rest hinv1 hnd1
          rw [hmk] at this
          rw [hproc]
          simpa using this
        | some info =>
          have hproc : processedFor p ((files_to_process w s).map (recordOf w)) =
              [info.mtime] := by
            rw [processedFor_map_mem w hp (ftp_nodup hnd), hs]
          have hmk : markerOf (check_and_process_files w s out).1 p = info.mtime := by
            unfold markerOf
            rw [check_markers_mem_some hp hnd hs]
            rfl
          have hmt : mtimeAt w p = some info.mtime := by
            unfold mtimeAt
            rw [hs]
            rfl
          have hlt : markerOf s p < info.mtime :=
            hinv hsome (w, .poll) (List.mem_cons_self _ _) info.mtime hmt
          have hinv1 : trackInv p (check_and_process_files w s out).1 rest :=
            trackInv_of_none (check_fts_mem hp)
          have hch := ih (check_and_process_files w s out).1
            (check_and_process_files w s out).2.1 hpw_rest hinv1 hnd1
          rw [hmk] at hch
          rw [hproc]
          exact List.chain'_cons.mpr ⟨hlt, hch⟩
      · have hproc : processedFor p ((files_to_process w s).map (recordOf w)) = [] :=
          processedFor_map_not_mem w hp
        have hmk : markerOf (check_and_process_files w s out).1 p = markerOf s p := by
          unfold markerOf
          rw [check_markers_not_mem hp]
        have hinv1 : trackInv p (check_and_process_files w s out).1 rest := by
          intro hsome x hx m hm
          rw [markerOf, check_markers_not_mem hp]
          rw [check_fts_not_mem hp] at hsome
          exact hinv hsome x (List.mem_cons_of_mem _ hx) m hm
        have := ih (check_and_process_files w s out).1
          (check_and_process_files w s out).2.1 hpw_rest hinv1 hnd1
        rw [hmk] at this
        rw [hproc]
        simpa using this

/-- C2: At-most-one processing per modification: starting from a freshly
initialised handler, along any run whose environment snapshots report
monotone (in particular, strictly increasing at each modification) mtimes
for path `p`, the captured mtimes of the conversion passes dispatched for
`p` form a strictly increasing sequence — so each modification time is
dispatched at most once and the same revision is never appended twice. -/
theorem c2_at_most_one_processing (od : String) (ip : ℤ) (out0 : OutFs) (p : FPath)
    (ws : List (World × Step))
    (hmono : List.Pairwise (fun x y => mtMono p x.1 y.1) ws) :
    List.Chain' (· < ·)
      (0 :: processedFor p (run (LRMetaDataHandler.init od ip) out0 ws).2.2) ∧
    (processedFor p (run (LRMetaDataHandler.init od ip) out0 ws).2.2).Nodup := by
  have h0 : markerOf (LRMetaDataHandler.init od ip) p = 0 := rfl
  have hinv : trackInv p (LRMetaDataHandler.init od ip) ws := by
    intro hsome
    simp [LRMetaDataHandler.init, alookup] at hsome
  have hnd : (keysOf (LRMetaDataHandler.init od ip).file_timestamps).Nodup := by
    simp [LRMetaDataHandler.init, keysOf]
  have hch := run_chain p ws (LRMetaDataHandler.init od ip) out0 hmono hinv hnd
  rw [h0] at hch
  refine ⟨hch, ?_⟩
  have hpw : List.Pairwise (· < ·)
      (0 :: processedFor p (run (LRMetaDataHandler.init od ip) out0 ws).2.2) :=
    List.chain'_iff_pairwise.mp hch
  exact ((List.pairwise_cons.mp hpw).2).imp ne_of_lt

/-- Witness for C2 on a concrete two-step trace: one passing creation
event at wall time 10 (mtime 5), one poll at wall time 100 with threshold
30; the path is dispatched once with captured mtime 5. -/
theorem c2_witness :
    (List.Chain' (· < ·)
      (0 :: processedFor "a.dat" (run (LRMetaDataHandler.init "out" 30) []
        [(⟨[("a.dat", ⟨5, some ⟨0, ""⟩⟩)], 10, 0⟩, Step.evCreated "a.dat" false),
         (⟨[("a.dat", ⟨5, some ⟨0, ""⟩⟩)], 100, 0⟩, Step.poll)]).2.2) ∧
    (processedFor "a.dat" (run (LRMetaDataHandler.init "out" 30) []
        [(⟨[("a.dat", ⟨5, some ⟨0, ""⟩⟩)], 10, 0⟩, Step.evCreated "a.dat" false),
         (⟨[("a.dat", ⟨5, some ⟨0, ""⟩⟩)], 100, 0⟩, Step.poll)]).2.2).Nodup) ∧
    processedFor "a.dat" (run (LRMetaDataHandler.init "out" 30) []
        [(⟨[("a.dat", ⟨5, some ⟨0, ""⟩⟩)], 10, 0⟩, Step.evCreated "a.dat" false),
         (⟨[("a.dat", ⟨5, some ⟨0, ""⟩⟩)], 100, 0⟩, Step.poll)]).2.2 = [5] := by
  refine ⟨c2_at_most_one_processing "out" 30 [] "a.dat" _ ?_, by decide⟩
  refine List.Pairwise.cons ?_ (List.pairwise_singleton _ _)
  intro y hy
  simp only [List.mem_singleton] at hy
  subst hy
  intro m1 m2 h1 h2
  simp [mtimeAt, alookup] at h1 h2
  omega

/-- C3: `shouldTrack` is (by construction) a pure predicate of the
filesystem view and handler state; it returns false when the stat fails;
with a successful stat it returns true iff the mtime strictly exceeds
the marker (default time zero); and after a marker equal to the current
mtime is stored, the same event is rejected and neither callback
re-queues the path (state unchanged). -/
theorem c3_should_track_spec :
    (∀ (src : SrcFs) (s : LRMetaDataHandler) (p : FPath),
        alookup src p = none → should_track src s p = false) ∧
    (∀ (src : SrcFs) (s : LRMetaDataHandler) (p : FPath) (info : SrcInfo),
        alookup src p = some info →
        (should_track src s p = true ↔ (alookup s.processed_mtimes p).getD 0 < info.mtime)) ∧
    (∀ (src : SrcFs) (s : LRMetaDataHandler) (p : FPath) (info : SrcInfo) (T now : ℤ),
        alookup s.processed_mtimes p = some T → alookup src p = some info →
        info.mtime = T →
        should_track src s p = false ∧
        on_modified src now s p false = s ∧ on_created src now s p false = s) := by
  refine ⟨?_, ?_, ?_⟩
  · intro src s p h
    unfold should_track
    rw [h]
  · intro src s p info h
    unfold should_track
    rw [h]
    simp
  · intro src s p info T now hm hs hmt
    have hfalse : should_track src s p = false := by
      unfold should_track
      rw [hs, hm]
      simp [hmt]
    refine ⟨hfalse, ?_, ?_⟩
    · unfold on_modified
      simp [hfalse]
    · unfold on_created
      simp [hfalse]

/-- Witness for C3 at concrete inputs: a missing file is rejected; a
fresh handler tracks mtime 5 iff `0 < 5`; after marker 5 is stored for
mtime 5 the predicate rejects and both callbacks leave the state
unchanged. -/
theorem c3_witness :
    should_track [] (LRMetaDataHandler.init "o" 30) "a.dat" = false ∧
    (should_track [("a.dat", ⟨5, none⟩)] (LRMetaDataHandler.init "o" 30) "a.dat" = true ↔
      (alookup (LRMetaDataHandler.init "o" 30).processed_mtimes "a.dat").getD 0 <
        (SrcInfo.mk 5 none).mtime) ∧
    (should_track [("a.dat", ⟨5, none⟩)]
        (LRMetaDataHandler.mk "o" 30 [] [("a.dat", 5)]) "a.dat" = false ∧
      on_modified [("a.dat", ⟨5, none⟩)] 7 (LRMetaDataHandler.mk "o" 30 [] [("a.dat", 5)])
        "a.dat" false = LRMetaDataHandler.mk "o" 30 [] [("a.dat", 5)] ∧
      on_created [("a.dat", ⟨5, none⟩)] 7 (LRMetaDataHandler.mk "o" 30 [] [("a.dat", 5)])
        "a.dat" false = LRMetaDataHandler.mk "o" 30 [] [("a.dat", 5)]) :=
  ⟨c3_should_track_spec.1 [] (LRMetaDataHandler.init "o" 30) "a.dat" (by decide),
   c3_should_track_spec.2.1 [("a.dat", ⟨5, none⟩)] (LRMetaDataHandler.init "o" 30) "a.dat"
     (SrcInfo.mk 5 none) (by decide),
   c3_should_track_spec.2.2 [("a.dat", ⟨5, none⟩)]
     (LRMetaDataHandler.mk "o" 30 [] [("a.dat", 5)]) "a.dat" (SrcInfo.mk 5 none) 5 7
     (by decide) (by decide) (by decide)⟩

/-- C4: Debounce correctness: a passing event for a tracked `.dat` path
resets its activity timestamp to the event's `now`; a poll whose elapsed
inactivity does not strictly exceed the threshold leaves the entry
untouched and dispatches nothing for the path; a poll whose inactivity
strictly exceeds the threshold dispatches the path exactly once and
removes its entry. -/
theorem c4_debounce (w : World) (s : LRMetaDataHandler) (out : OutFs) (p : FPath) (t : ℤ)
    (hnd : (keysOf s.file_timestamps).Nodup)
    (ht : alookup s.file_timestamps p = some t) :
    (∀ (now' : ℤ) (src' : SrcFs),
        (pyEndsWith p ".dat" && should_track src' s p) = true →
        alookup (on_modified src' now' s p false).file_timestamps p = some now') ∧
    (w.nowWall - t ≤ s.inactivity_period →
        alookup (check_and_process_files w s out).1.file_timestamps p = some t ∧
        ((check_and_process_files w s out).2.2.map recPath).count p = 0) ∧
    (s.inactivity_period < w.nowWall - t →
        ((check_and_process_files w s out).2.2.map recPath).count p = 1 ∧
        alookup (check_and_process_files w s out).1.file_timestamps p = none) := by
  refine ⟨?_, ?_, ?_⟩
  · intro now' src' hpass
    unfold on_modified
    simp [hpass, alookup_upsert_self]
  · intro hle
    have hnm : p ∉ files_to_process w s := by
      rw [mem_ftp_iff hnd ht]
      omega
    refine ⟨by rw [check_fts_not_mem hnm, ht], ?_⟩
    rw [check_records_paths]
    exact List.count_eq_zero.mpr hnm
  · intro hlt
    have hm : p ∈ files_to_process w s := (mem_ftp_iff hnd ht).mpr hlt
    refine ⟨?_, check_fts_mem hm⟩
    rw [check_records_paths]
    exact List.count_eq_one_of_mem (ftp_nodup hnd) hm

/-- Witness for C4 at a concrete ready state: tracked at wall time 10,
poll at wall time 100 with threshold 30 dispatches once and unterminates
tracking. -/
theorem c4_witness :
    ((∀ (now' : ℤ) (src' : SrcFs),
        (pyEndsWith "a.dat" ".dat" &&
          should_track src' (LRMetaDataHandler.mk "out" 30 [("a.dat", 10)] []) "a.dat") = true →
        alookup (on_modified src' now' (LRMetaDataHandler.mk "out" 30 [("a.dat", 10)] [])
          "a.dat" false).file_timestamps "a.dat" = some now') ∧
    ((⟨[("a.dat", ⟨5, some ⟨0, ""⟩⟩)], 100, 0⟩ : World).nowWall - 10 ≤
        (LRMetaDataHandler.mk "out" 30 [("a.dat", 10)] []).inactivity_period →
        alookup (check_and_process_files ⟨[("a.dat", ⟨5, some ⟨0, ""⟩⟩)], 100, 0⟩
          (LRMetaDataHandler.mk "out" 30 [("a.dat", 10)] []) []).1.file_timestamps "a.dat" =
            some 10 ∧
        ((check_and_process_files ⟨[("a.dat", ⟨5, some ⟨0, ""⟩⟩)], 100, 0⟩
          (LRMetaDataHandler.mk "out" 30 [("a.dat", 10)] []) []).2.2.map recPath).count
            "a.dat" = 0) ∧
    ((LRMetaDataHandler.mk "out" 30 [("a.dat", 10)] []).inactivity_period <
        (⟨[("a.dat", ⟨5, some ⟨0, ""⟩⟩)], 100, 0⟩ : World).nowWall - 10 →
        ((check_and_process_files ⟨[("a.dat", ⟨5, some ⟨0, ""⟩⟩)], 100, 0⟩
          (LRMetaDataHandler.mk "out" 30 [("a.dat", 10)] []) []).2.2.map recPath).count
            "a.dat" = 1 ∧
        alookup (check_and_process_files ⟨[("a.dat", ⟨5, some ⟨0, ""⟩⟩)], 100, 0⟩
          (LRMetaDataHandler.mk "out" 30 [("a.dat", 10)] []) []).1.file_timestamps "a.dat" =
            none)) :=
  c4_debounce ⟨[("a.dat", ⟨5, some ⟨0, ""⟩⟩)], 100, 0⟩
    (LRMetaDataHandler.mk "out" 30 [("a.dat", 10)] []) [] "a.dat" 10 (by decide) (by decide)

/-- C5: Missing-file safety: a tracked, ready path whose file cannot be
stat-ed at dispatch is dropped — entry removed, marker untouched, no
conversion pass for it — while every ready path still receives exactly
its own dispatch record (the cycle continues past the missing file). -/
theorem c5_missing_file_safety (w : World) (s : LRMetaDataHandler) (out : OutFs)
    (p : FPath) (t : ℤ) (hnd : (keysOf s.file_timestamps).Nodup)
    (ht : alookup s.file_timestamps p = some t)
    (hready : s.inactivity_period < w.nowWall - t)
    (hmiss : alookup w.src p = none) :
    alookup (check_and_process_files w s out).1.file_timestamps p = none ∧
    alookup (check_and_process_files w s out).1.processed_mtimes p =
      alookup s.processed_mtimes p ∧
    processedFor p (check_and_process_files w s out).2.2 = [] ∧
    PollRecord.dropped p ∈ (check_and_process_files w s out).2.2 ∧
    (check_and_process_files w s out).2.2.map recPath = files_to_process w s := by
  have hm : p ∈ files_to_process w s := (mem_ftp_iff hnd ht).mpr hready
  refine ⟨check_fts_mem hm, check_markers_mem_none hm hnd hmiss, ?_, ?_,
    check_records_paths w s out⟩
  · rw [check_records, processedFor_map_mem w hm (ftp_nodup hnd), hmiss]
  · rw [check_records]
    refine List.mem_map.mpr ⟨p, hm, ?_⟩
    unfold recordOf
    rw [hmiss]

/-- Witness for C5: two ready files, the first one vanished before its
mtime capture; it is dropped without a marker while the second is still
processed. -/
theorem c5_witness :
    (alookup (check_and_process_files ⟨[("b.dat", ⟨5, some ⟨0, ""⟩⟩)], 100, 0⟩
      (LRMetaDataHandler.mk "out" 30 [("a.dat", 10), ("b.dat", 20)] []) []).1.file_timestamps
        "a.dat" = none ∧
    alookup (check_and_process_files ⟨[("b.dat", ⟨5, some ⟨0, ""⟩⟩)], 100, 0⟩
      (LRMetaDataHandler.mk "out" 30 [("a.dat", 10), ("b.dat", 20)] []) []).1.processed_mtimes
        "a.dat" =
      alookup (LRMetaDataHandler.mk "out" 30 [("a.dat", 10), ("b.dat", 20)]
        ([] : List (FPath × ℤ))).processed_mtimes "a.dat" ∧
    processedFor "a.dat" (check_and_process_files ⟨[("b.dat", ⟨5, some ⟨0, ""⟩⟩)], 100, 0⟩
      (LRMetaDataHandler.mk "out" 30 [("a.dat", 10), ("b.dat", 20)] []) []).2.2 = [] ∧
    PollRecord.dropped "a.dat" ∈ (check_and_process_files ⟨[("b.dat", ⟨5, some ⟨0, ""⟩⟩)], 100, 0⟩
      (LRMetaDataHandler.mk "out" 30 [("a.dat", 10), ("b.dat", 20)] []) []).2.2 ∧
    (check_and_process_files ⟨[("b.dat", ⟨5, some ⟨0, ""⟩⟩)], 100, 0⟩
      (LRMetaDataHandler.mk "out" 30 [("a.dat", 10), ("b.dat", 20)] []) []).2.2.map recPath =
      files_to_process ⟨[("b.dat", ⟨5, some ⟨0, ""⟩⟩)], 100, 0⟩
        (LRMetaDataHandler.mk "out" 30 [("a.dat", 10), ("b.dat", 20)] [])) ∧
    (check_and_process_files ⟨[("b.dat", ⟨5, some ⟨0, ""⟩⟩)], 100, 0⟩
      (LRMetaDataHandler.mk "out" 30 [("a.dat", 10), ("b.dat", 20)] []) []).2.2 =
      [PollRecord.dropped "a.dat", PollRecord.processed "b.dat" 5 true] :=
  ⟨c5_missing_file_safety ⟨[("b.dat", ⟨5, some ⟨0, ""⟩⟩)], 100, 0⟩
    (LRMetaDataHandler.mk "out" 30 [("a.dat", 10), ("b.dat", 20)] []) [] "a.dat" 10
    (by decide) (by decide) (by decide) (by decide), by decide⟩

/-- C1 counterexample: a tracked, ready path whose source stats fine
(mtime 7) but whose read fails, so the conversion collaborator fails
(`convSuccess = false`, and nothing is written to the output tree) — yet
the dispatcher still stores `ProcessedMarker["a.dat"] = 7`. The claim
says a conversion failure leaves the marker unset; the code updates it
unconditionally because `convert_lr_to_epic` swallows its exceptions. -/
theorem c1_counterexample :
    (check_and_process_files ⟨[("a.dat", ⟨7, none⟩)], 100, 0⟩
      (LRMetaDataHandler.mk "out" 30 [("a.dat", 0)] []) []).2.2 =
      [PollRecord.processed "a.dat" 7 false] ∧
    alookup (check_and_process_files ⟨[("a.dat", ⟨7, none⟩)], 100, 0⟩
      (LRMetaDataHandler.mk "out" 30 [("a.dat", 0)] []) []).1.processed_mtimes "a.dat" =
      some 7 ∧
    alookup (check_and_process_files ⟨[("a.dat", ⟨7, none⟩)], 100, 0⟩
      (LRMetaDataHandler.mk "out" 30 [("a.dat", 0)] []) []).1.file_timestamps "a.dat" =
      none ∧
    (check_and_process_files ⟨[("a.dat", ⟨7, none⟩)], 100, 0⟩
      (LRMetaDataHandler.mk "out" 30 [("a.dat", 0)] []) []).2.1 = [] := by decide

/-- C1 (amended): when the conversion collaborator fails for a
stat-able file, the dispatcher still removes the ActivityRecord entry
but ALSO stores `ProcessedMarker[path] = mtimeCapturedJustBefore`,
exactly as on success — the collaborator catches its own exceptions, so
the dispatcher cannot observe the failure and performs the identical
commit; the caller cannot observe the failure through the marker at
all (only through the absence of appended output). -/
theorem c1_failure_still_marks (w : World) (s : LRMetaDataHandler) (out : OutFs)
    (p : FPath) (t : ℤ) (info : SrcInfo) (hnd : (keysOf s.file_timestamps).Nodup)
    (ht : alookup s.file_timestamps p = some t)
    (hready : s.inactivity_period < w.nowWall - t)
    (hsrc : alookup w.src p = some info) :
    alookup (check_and_process_files w s out).1.file_timestamps p = none ∧
    alookup (check_and_process_files w s out).1.processed_mtimes p = some info.mtime ∧
    PollRecord.processed p info.mtime (convSuccessOf info.data) ∈
      (check_and_process_files w s out).2.2 := by
  have hm : p ∈ files_to_process w s := (mem_ftp_iff hnd ht).mpr hready
  refine ⟨check_fts_mem hm, check_markers_mem_some hm hnd hsrc, ?_⟩
  rw [check_records]
  refine List.mem_map.mpr ⟨p, hm, ?_⟩
  unfold recordOf
  rw [hsrc]

/-- Witness for C1 (amended) at the counterexample's input: the failed
conversion (`data = none`, so `isSome = false`) still commits marker 7
and unterminates tracking. -/
theorem c1_witness :
    alookup (check_and_process_files ⟨[("a.dat", ⟨7, none⟩)], 100, 0⟩
      (LRMetaDataHandler.mk "out" 30 [("a.dat", 0)] []) []).1.file_timestamps "a.dat" =
      none ∧
    alookup (check_and_process_files ⟨[("a.dat", ⟨7, none⟩)], 100, 0⟩
      (LRMetaDataHandler.mk "out" 30 [("a.dat", 0)] []) []).1.processed_mtimes "a.dat" =
      some (SrcInfo.mk 7 none).mtime ∧
    PollRecord.processed "a.dat" (SrcInfo.mk 7 none).mtime
        (convSuccessOf (SrcInfo.mk 7 none).data) ∈
      (check_and_process_files ⟨[("a.dat", ⟨7, none⟩)], 100, 0⟩
        (LRMetaDataHandler.mk "out" 30 [("a.dat", 0)] []) []).2.2 :=
  c1_failure_still_marks ⟨[("a.dat", ⟨7, none⟩)], 100, 0⟩
    (LRMetaDataHandler.mk "out" 30 [("a.dat", 0)] []) [] "a.dat" 0 (SrcInfo.mk 7 none)
    (by decide) (by decide) (by decide) (by decide)

/-- C6: End-to-end conversion of a source created 2024-01-01T10:00:00
containing `"2.5\tHIGH\n"`: exactly the line
`"01/01/2024 10:00:02.500000,HIGH\n"` is produced and appended (after
the header) to `<base>/<YYYY>/<YYYY_MM_DD>/LR.txt`, whose date segments
come from the conversion-time clock: converting at 2024-01-01T12:00
writes under `2024/2024_01_01`, converting the same source at
2025-06-07T08:00 writes under `2025/2025_06_07` and nothing under the
source's own date. -/
theorem c6_end_to_end :
    (convert_lr_to_epic (some ⟨dtUsec 2024 1 1 10 0 0, "2.5\tHIGH\n"⟩) "out"
        (dtUsec 2024 1 1 12 0 0) []).appended = ["01/01/2024 10:00:02.500000,HIGH\n"] ∧
    alookup (convert_lr_to_epic (some ⟨dtUsec 2024 1 1 10 0 0, "2.5\tHIGH\n"⟩) "out"
        (dtUsec 2024 1 1 12 0 0) []).outFs "out/2024/2024_01_01/LR.txt" =
      some "EPIC LR Log File\n\nDate,LR\n01/01/2024 10:00:02.500000,HIGH\n" ∧
    alookup (convert_lr_to_epic (some ⟨dtUsec 2024 1 1 10 0 0, "2.5\tHIGH\n"⟩) "out"
        (dtUsec 2025 6 7 8 0 0) []).outFs "out/2025/2025_06_07/LR.txt" =
      some "EPIC LR Log File\n\nDate,LR\n01/01/2024 10:00:02.500000,HIGH\n" ∧
    alookup (convert_lr_to_epic (some ⟨dtUsec 2024 1 1 10 0 0, "2.5\tHIGH\n"⟩) "out"
        (dtUsec 2025 6 7 8 0 0) []).outFs "out/2024/2024_01_01/LR.txt" = none := by
  decide

/-- C7 counterexample: on the claim's own input the malformed middle
line `" bad_line\n"` is skipped by the `continue` at source line 30
without any `logging.warning` — the warning counter stays 0 although the
claim requires a logged warning for every skipped line; the two valid
lines are still converted. -/
theorem c7_counterexample :
    (convert_lr_to_epic (some ⟨dtUsec 2024 1 1 0 0 0, "0.0\t5\n bad_line\n1.5\t7\n"⟩) "out"
        (dtUsec 2024 1 1 0 0 0) []).warnings = 0 ∧
    (convert_lr_to_epic (some ⟨dtUsec 2024 1 1 0 0 0, "0.0\t5\n bad_line\n1.5\t7\n"⟩) "out"
        (dtUsec 2024 1 1 0 0 0) []).appended.length = 2 ∧
    convertLine (dtUsec 2024 1 1 0 0 0) " bad_line\n" = .skipped := by decide

/-- C7 (amended): line-level problems that raise `ValueError` never
abort the file: a line that does not split into exactly two
tab-separated fields is skipped silently (no warning), and a two-field
line whose first field `float` rejects — or parses as NaN, which
`timedelta` rejects with `ValueError` — is skipped with a logged
warning; the remaining lines are converted in input order. But a
two-field line whose float-valid offset raises `OverflowError`
(infinite, or beyond the `timedelta`/`datetime` range, e.g. `"1e20"` or
`"inf"`) escapes the per-line `except ValueError` and aborts the whole
file: nothing is appended. The claim's input has no such line and
yields exactly the two output lines for offsets 0.0 and 1.5. -/
theorem c7_line_skipping_amended :
    (∀ (src : SourceData) (b : String) (n : ℤ) (o : OutFs),
        (convert_lr_to_epic (some src) b n o).success =
          !((pyReadlines src.content).any (lineAborts src.ctime))) ∧
    (∀ (bt : ℤ) (line : String), (pySplitTab (pyStrip line)).length ≠ 2 →
        convertLine bt line = .skipped) ∧
    (∀ (bt : ℤ) (line p0 p1 : String), pySplitTab (pyStrip line) = [p0, p1] →
        pyFloatUsec? p0 = none ∨ pyFloatUsec? p0 = some .nan →
        convertLine bt line = .warned) ∧
    (∀ (src : SourceData) (b : String) (n : ℤ) (o : OutFs),
        (pyReadlines src.content).any (lineAborts src.ctime) = true →
        (convert_lr_to_epic (some src) b n o).outFs = o ∧
        (convert_lr_to_epic (some src) b n o).appended = []) ∧
    ((convert_lr_to_epic (some ⟨dtUsec 2024 1 1 0 0 0, "0.0\t5\n bad_line\n1.5\t7\n"⟩) "out"
        (dtUsec 2024 1 1 0 0 0) []).appended =
      ["01/01/2024 00:00:00.000000,5\n", "01/01/2024 00:00:01.500000,7\n"] ∧
     (convert_lr_to_epic (some ⟨dtUsec 2024 1 1 0 0 0, "0.0\t5\ninf\t7\n"⟩) "out"
        (dtUsec 2024 1 1 0 0 0) []).success = false ∧
     (convert_lr_to_epic (some ⟨dtUsec 2024 1 1 0 0 0, "0.0\t5\ninf\t7\n"⟩) "out"
        (dtUsec 2024 1 1 0 0 0) []).appended = []) := by
  refine ⟨?_, ?_, ?_, ?_, by decide⟩
  · intro src b n o
    rw [convert_success]
    rfl
  · intro bt line h
    rcases hsp : pySplitTab (pyStrip line) with _ | ⟨a, rest⟩
    · unfold convertLine
      rw [hsp]
    · rcases rest with _ | ⟨b2, rest2⟩
      · unfold convertLine
        rw [hsp]
      · rcases rest2 with _ | ⟨c, rest3⟩
        · exact absurd (by rw [hsp]; rfl) h
        · unfold convertLine
          rw [hsp]
  · intro bt line p0 p1 hsp hor
    unfold convertLine
    rw [hsp]
    rcases hor with h | h <;> simp [h]
  · intro src b n o hab
    have hL : (convertLoop src.ctime (pyReadlines src.content)).2.2 = true := by
      rw [convertLoop_aborted]
      exact hab
    exact ⟨by simp [convert_lr_to_epic, hL], by simp [convert_lr_to_epic, hL]⟩

/-- Witness for C7 (amended): a one-field line and a three-field line
are silently skipped; two-field lines with a non-numeric or NaN first
field are skipped with a warning. -/
theorem c7_witness :
    convertLine 0 " bad_line\n" = .skipped ∧
    convertLine 0 "x\ty\tz" = .skipped ∧
    convertLine 0 "abc\t5" = .warned ∧
    convertLine 0 "nan\t5" = .warned :=
  ⟨c7_line_skipping_amended.2.1 0 " bad_line\n" (by decide),
   c7_line_skipping_amended.2.1 0 "x\ty\tz" (by decide),
   c7_line_skipping_amended.2.2.1 0 "abc\t5" "abc" "5" (by decide) (Or.inl (by decide)),
   c7_line_skipping_amended.2.2.1 0 "nan\t5" "nan" "5" (by decide) (Or.inr (by decide))⟩

theorem convert_some_outFs (src : SourceData) (b : String) (n : ℤ) (o : OutFs)
    (h : (pyReadlines src.content).any (lineAborts src.ctime) = false) :
    (convert_lr_to_epic (some src) b n o).outFs =
      upsert o (output_file_path b n)
        ((match alookup o (output_file_path b n) with
          | some c => c
          | none => headerText) ++
          String.join (convert_lr_to_epic (some src) b n o).appended) := by
  have hL : (convertLoop src.ctime (pyReadlines src.content)).2.2 = false := by
    rw [convertLoop_aborted]
    exact h
  simp [convert_lr_to_epic, hL]

theorem convert_some_abort (src : SourceData) (b : String) (n : ℤ) (o : OutFs)
    (h : (pyReadlines src.content).any (lineAborts src.ctime) = true) :
    (convert_lr_to_epic (some src) b n o).outFs = o ∧
    (convert_lr_to_epic (some src) b n o).appended = [] ∧
    (convert_lr_to_epic (some src) b n o).success = false := by
  have hL : (convertLoop src.ctime (pyReadlines src.content)).2.2 = true := by
    rw [convertLoop_aborted]
    exact h
  exact ⟨by simp [convert_lr_to_epic, hL], by simp [convert_lr_to_epic, hL],
    by simp [convert_lr_to_epic, hL]⟩

/-- C8: Header-once and append-only: a completed conversion to a
not-yet-existing output path writes exactly the header followed by the
converted data; a second completed conversion to the same path appends
its data directly after the existing content with no second header; any
pre-existing output file only ever grows by a suffix; and an aborted
conversion (a line raising `OverflowError`) writes nothing at all, so it
cannot violate the discipline either. -/
theorem c8_header_once (s1 s2 : SourceData) (base : String) (now : ℤ) (out0 : OutFs)
    (h0 : alookup out0 (output_file_path base now) = none)
    (ha1 : (pyReadlines s1.content).any (lineAborts s1.ctime) = false)
    (ha2 : (pyReadlines s2.content).any (lineAborts s2.ctime) = false) :
    alookup (convert_lr_to_epic (some s1) base now out0).outFs (output_file_path base now) =
      some (headerText ++ String.join (convert_lr_to_epic (some s1) base now out0).appended) ∧
    alookup (convert_lr_to_epic (some s2) base now
        (convert_lr_to_epic (some s1) base now out0).outFs).outFs (output_file_path base now) =
      some ((headerText ++ String.join (convert_lr_to_epic (some s1) base now out0).appended) ++
        String.join (convert_lr_to_epic (some s2) base now
          (convert_lr_to_epic (some s1) base now out0).outFs).appended) ∧
    (∀ (sv : Option SourceData) (out : OutFs) (q : FPath) (c : String),
        alookup out q = some c →
        ∃ d2, alookup (convert_lr_to_epic sv base now out).outFs q = some (c ++ d2)) ∧
    (∀ (src : SourceData) (out : OutFs),
        (pyReadlines src.content).any (lineAborts src.ctime) = true →
        (convert_lr_to_epic (some src) base now out).outFs = out) := by
  have h1 : alookup (convert_lr_to_epic (some s1) base now out0).outFs
      (output_file_path base now) =
      some (headerText ++
        String.join (convert_lr_to_epic (some s1) base now out0).appended) := by
    rw [convert_some_outFs _ _ _ _ ha1, h0, alookup_upsert_self]
  refine ⟨h1, ?_, ?_, ?_⟩
  · rw [convert_some_outFs _ _ _ _ ha2, h1, alookup_upsert_self]
  · intro sv out q c hq
    cases sv with
    | none =>
      refine ⟨"", ?_⟩
      have hsame : (convert_lr_to_epic none base now out).outFs = out := rfl
      rw [hsame, hq]
      have hce : c ++ "" = c := by simp
      rw [hce]
    | some src =>
      rcases Bool.eq_false_or_eq_true ((pyReadlines src.content).any (lineAborts src.ctime))
        with hab | hab
      · refine ⟨"", ?_⟩
        rw [(convert_some_abort src base now out hab).1, hq]
        have hce : c ++ "" = c := by simp
        rw [hce]
      · by_cases hqp : q = output_file_path base now
        · subst hqp
          refine ⟨String.join (convert_lr_to_epic (some src) base now out).appended, ?_⟩
          rw [convert_some_outFs _ _ _ _ hab, hq, alookup_upsert_self]
        · refine ⟨"", ?_⟩
          rw [convert_some_outFs _ _ _ _ hab, alookup_upsert_ne _ _ hqp, hq]
          have hce : c ++ "" = c := by simp
          rw [hce]
  · intro src out hab
    exact (convert_some_abort src base now out hab).1

/-- Witness for C8: two concrete one-line sources converted to the same
dated path on the same clock; the header appears before the first line
only, and the second conversion appends after the first. -/
theorem c8_witness :
    alookup (convert_lr_to_epic (some ⟨0, "1.0\tA\n"⟩) "o" 0 []).outFs
      (output_file_path "o" 0) =
      some (headerText ++ String.join (convert_lr_to_epic (some ⟨0, "1.0\tA\n"⟩) "o" 0
        []).appended) ∧
    alookup (convert_lr_to_epic (some ⟨0, "2.0\tB\n"⟩) "o" 0
        (convert_lr_to_epic (some ⟨0, "1.0\tA\n"⟩) "o" 0 []).outFs).outFs
      (output_file_path "o" 0) =
      some ((headerText ++ String.join (convert_lr_to_epic (some ⟨0, "1.0\tA\n"⟩) "o" 0
          []).appended) ++
        String.join (convert_lr_to_epic (some ⟨0, "2.0\tB\n"⟩) "o" 0
          (convert_lr_to_epic (some ⟨0, "1.0\tA\n"⟩) "o" 0 []).outFs).appended) ∧
    (∀ (sv : Option SourceData) (out : OutFs) (q : FPath) (c : String),
        alookup out q = some c →
        ∃ d2, alookup (convert_lr_to_epic sv "o" 0 out).outFs q = some (c ++ d2)) ∧
    (∀ (src : SourceData) (out : OutFs),
        (pyReadlines src.content).any (lineAborts src.ctime) = true →
        (convert_lr_to_epic (some src) "o" 0 out).outFs = out) :=
  c8_header_once ⟨0, "1.0\tA\n"⟩ ⟨0, "2.0\tB\n"⟩ "o" 0 [] (by decide) (by decide)
    (by decide)

/-- C10 counterexample: `"1e20"` is a valid number for `float()` and
`"1e20\t5"` splits into exactly two tab-separated fields, yet no output
line is appended at all: `timedelta(seconds=1e20)` raises
`OverflowError`, which is not caught by the `except ValueError` at
source line 41 and aborts the whole file at lines 63-64 — nothing is
written. -/
theorem c10_counterexample :
    pyFloatUsec? "1e20" = some (.finite 100000000000000000000000000) ∧
    pySplitTab (pyStrip "1e20\t5") = ["1e20", "5"] ∧
    convertLine 0 "1e20\t5" = .overflow ∧
    (convert_lr_to_epic (some ⟨0, "1e20\t5\n"⟩) "out" 0 []).appended = [] ∧
    (convert_lr_to_epic (some ⟨0, "1e20\t5\n"⟩) "out" 0 []).success = false ∧
    (convert_lr_to_epic (some ⟨0, "1e20\t5\n"⟩) "out" 0 []).outFs = [] := by decide

/-- C10 (amended): for a line splitting (after a whole-line strip) into
exactly two tab-separated fields whose first field parses as a finite
number within the `timedelta`/`datetime` range, the appended output
line is exactly the formatted timestamp, a comma, and the second field
copied verbatim; an intensity containing commas is emitted unescaped,
so such a row has three comma-separated columns while the `"Date,LR"`
header announces two; leading whitespace is stripped before splitting.
A numeric first field outside that range (e.g. `"1e20"`) instead raises
`OverflowError`, aborting the whole file with no appended line. -/
theorem c10_verbatim_intensity :
    (∀ (bt : ℤ) (line p0 p1 : String) (off : ℤ),
        pySplitTab (pyStrip line) = [p0, p1] →
        pyFloatUsec? p0 = some (.finite off) →
        offsetOverflows bt off = false →
        convertLine bt line = .converted (fmtDT (bt + off) ++ "," ++ p1 ++ "\n")) ∧
    (∀ (bt : ℤ) (line p0 p1 : String) (off : ℤ),
        pySplitTab (pyStrip line) = [p0, p1] →
        pyFloatUsec? p0 = some (.finite off) →
        offsetOverflows bt off = true →
        convertLine bt line = .overflow) ∧
    convertLine 0 "0.0\tA,B" = .converted "01/01/1970 00:00:00.000000,A,B\n" ∧
    convertLine 0 "  1.0\tX\n" = .converted "01/01/1970 00:00:01.000000,X\n" ∧
    ("01/01/1970 00:00:00.000000,A,B\n".data.count ',') = 2 ∧
    ("Date,LR\n".data.count ',') = 1 := by
  refine ⟨?_, ?_, by decide, by decide, by decide, by decide⟩
  · intro bt line p0 p1 off hsp hf hov
    unfold convertLine
    rw [hsp]
    simp [hf, hov]
  · intro bt line p0 p1 off hsp hf hov
    unfold convertLine
    rw [hsp]
    simp [hf, hov]

/-- Witness for C10 (amended): the conversion clause at `"2.5\tHIGH"`
and the abort clause at `"1e20\t5"`. -/
theorem c10_witness :
    convertLine 0 "2.5\tHIGH" =
      .converted (fmtDT ((0 : ℤ) + 2500000) ++ "," ++ "HIGH" ++ "\n") ∧
    convertLine 0 "1e20\t5" = .overflow :=
  ⟨c10_verbatim_intensity.1 0 "2.5\tHIGH" "2.5" "HIGH" 2500000 (by decide) (by decide)
     (by decide),
   c10_verbatim_intensity.2.1 0 "1e20\t5" "1e20" "5" 100000000000000000000000000
     (by decide) (by decide) (by decide)⟩

example : daysFromCivil 1970 1 1 = 0 := by decide
example : daysFromCivil 2024 1 1 = 19723 := by decide
example : civilFromDays 19723 = (2024, 1, 1) := by decide
example : fmtDT (dtUsec 2024 1 1 10 0 0 + 2500000) = "01/01/2024 10:00:02.500000" := by decide
example : pyFloatUsec? "2.5" = some (.finite 2500000) := by decide
example : pyFloatUsec? "bad_line" = none := by decide
example : pyFloatUsec? "1.5e1" = some (.finite 15000000) := by decide
example : pyFloatUsec? "-0.25" = some (.finite (-250000)) := by decide
example : pyFloatUsec? "1_0" = some (.finite 10000000) := by decide
example : pyFloatUsec? "1__0" = none := by decide
example : pyFloatUsec? "1_" = none := by decide
example : pyFloatUsec? "_1" = none := by decide
example : pyFloatUsec? "inf" = some (.inf true) := by decide
example : pyFloatUsec? "-Infinity" = some (.inf false) := by decide
example : pyFloatUsec? "nan" = some .nan := by decide
example : convertLine 0 "nan\t5" = .warned := by decide
example : convertLine 0 "inf\t5" = .overflow := by decide
example : pyStrip "\u00a0x\u00a0" = "x" := by decide
example : datetimeMinUsec = -62135596800000000 := by decide
example : datetimeMaxUsec = 253402300799999999 := by decide
example : convertLine 0 "1e12\t5" = .overflow := by decide
example : convertLine 0 "1e7\t5" = .converted (fmtDT 10000000000000 ++ ",5\n") := by decide
example : pyReadlines "0.0\t5\n bad_line\n1.5\t7\n" = ["0.0\t5\n", " bad_line\n", "1.5\t7\n"] := by decide

example :
    convert_lr_to_epic (some ⟨dtUsec 2024 1 1 10 0 0, "2.5\tHIGH\n"⟩) "out"
      (dtUsec 2024 1 1 12 0 0) [] =
    ⟨[("out/2024/2024_01_01/LR.txt",
       "EPIC LR Log File\n\nDate,LR\n01/01/2024 10:00:02.500000,HIGH\n")], true, 0,
     ["01/01/2024 10:00:02.500000,HIGH\n"]⟩ := by decide
